import Mathlib

set_option maxRecDepth 8000

/-!
Verification development for the esphome-build-server job orchestration and
log-streaming core.  The definitions below are shallow embeddings of
`src/app/services.py` (log classifier), `src/app/jobs.py` (process runner and
dispatcher), `src/app/routes.py` (replay path and live subscriptions) and
`src/app/jobs_state.py` (semaphore and broadcaster registry).
-/

/-! ## String helpers mirroring the Python primitives used by the source -/

/-- The characters Python's `str.strip()` (and `re`'s `\s`) treat as whitespace. -/
def isPySpace (c : Char) : Bool :=
  c == ' ' || c == '\t' || c == '\n' || c == '\x0b' || c == '\x0c' || c == '\r'

/-- Python substring test `needle in hay`, on character lists. -/
def containsSubL (needle : List Char) : List Char → Bool
  | [] => needle.isEmpty
  | c :: rest => needle.isPrefixOf (c :: rest) || containsSubL needle rest

/-- Python `needle in hay` on strings. -/
def strContains (hay needle : String) : Bool :=
  containsSubL needle.data hay.data

/-- Python `s.startswith(p)`. -/
def strStarts (s p : String) : Bool :=
  p.data.isPrefixOf s.data

/-- Python `s.strip()` with no argument. -/
def pyStrip (s : String) : String :=
  ⟨((s.data.dropWhile isPySpace).reverse.dropWhile isPySpace).reverse⟩

/-- Python `s[n:]`. -/
def pyDrop (n : Nat) (s : String) : String :=
  ⟨s.data.drop n⟩

/-- Python `s.upper()` restricted to ASCII (the inputs are "compile"/"upload"). -/
def pyUpper (s : String) : String :=
  ⟨s.data.map Char.toUpper⟩

/-- Match a literal at the head of the input, returning the remainder. -/
def expectL (lit : List Char) (l : List Char) : Option (List Char) :=
  if lit.isPrefixOf l then some (l.drop lit.length) else none

/-!
The two compiled regexes of `services.py`:

    progress_bar_regex = ^(RAM|Flash):\s*(\[.*?\])\s*(\d+\.\d+%)
    download_bar_regex = \[\?25l(Downloading|Unpacking)\s*(\[.*?\])\s*(\d+%)

both applied with `re.match` (anchored at the start, trailing input allowed).
The alternatives have distinct first characters, the non-greedy `.*?` before
`\]` matches up to the first `]` (and `.` cannot cross a newline), and each
greedy `\d+`/`\s*` run is followed by a literal that cannot extend the run, so
the deterministic longest-run parsers below implement exactly the regex
backtracking semantics.
-/

/-- `\s*(\[.*?\])\s*` : skip spaces, take a bracketed group, skip spaces.
Returns the bracketed group (brackets included) and the rest. -/
def matchBracketGroup (l : List Char) : Option (String × List Char) :=
  match l.dropWhile isPySpace with
  | '[' :: r =>
    let inside := r.takeWhile (fun c => c ≠ ']')
    match r.dropWhile (fun c => c ≠ ']') with
    | ']' :: rest =>
      if inside.contains '\n' then none
      else some (⟨'[' :: (inside ++ [']'])⟩, rest.dropWhile isPySpace)
    | _ => none
  | _ => none

/-- `(\d+\.\d+%)` : the percent group of the progress-bar regex. -/
def matchDecimalPercent (l : List Char) : Option String :=
  let d1 := l.takeWhile Char.isDigit
  if d1.isEmpty then none else
  match l.dropWhile Char.isDigit with
  | '.' :: r2 =>
    let d2 := r2.takeWhile Char.isDigit
    if d2.isEmpty then none else
    match r2.dropWhile Char.isDigit with
    | '%' :: _ => some ⟨d1 ++ '.' :: (d2 ++ ['%'])⟩
    | _ => none
  | _ => none

/-- `(\d+%)` : the percent group of the download-bar regex. -/
def matchIntPercent (l : List Char) : Option String :=
  let d1 := l.takeWhile Char.isDigit
  if d1.isEmpty then none else
  match l.dropWhile Char.isDigit with
  | '%' :: _ => some ⟨d1 ++ ['%']⟩
  | _ => none

/-- One alternative of `progress_bar_regex.match(line)`. -/
def matchProgressWith (name : String) (l : List Char) : Option (String × String × String) :=
  match expectL (name.data ++ [':']) l with
  | none => none
  | some r1 =>
    match matchBracketGroup r1 with
    | none => none
    | some (bar, r2) =>
      match matchDecimalPercent r2 with
      | none => none
      | some pct => some (name, bar, pct)

/-- `progress_bar_regex.match(line)`, returning groups (name, bar, percent). -/
def progressMatch (l : List Char) : Option (String × String × String) :=
  match matchProgressWith "RAM" l with
  | some r => some r
  | none => matchProgressWith "Flash" l

/-- One alternative of `download_bar_regex.match(line)`. -/
def matchDownloadWith (name : String) (l : List Char) : Option (String × String × String) :=
  match expectL ("[?25l".data ++ name.data) l with
  | none => none
  | some r1 =>
    match matchBracketGroup r1 with
    | none => none
    | some (bar, r2) =>
      match matchIntPercent r2 with
      | none => none
      | some pct => some (name, bar, pct)

/-- `download_bar_regex.match(line)`, returning groups (name, bar, percent). -/
def downloadMatch (l : List Char) : Option (String × String × String) :=
  match matchDownloadWith "Downloading" l with
  | some r => some r
  | none => matchDownloadWith "Unpacking" l

/-! ## The line classifier `_parse_log_line_type` (services.py lines 17-70) -/

/-- Result of `_parse_log_line_type`: the `'type'` tag plus its `'data'`. -/
inductive LineType where
  | milestoneT (data : String)
  | progressT (name bar percent : String)
  | compileArchiveT
  | logT
deriving DecidableEq

/-- `services._parse_log_line_type`, rule for rule in source order. -/
def parse_log_line_type (line : String) : LineType :=
  if strContains line "Successfully uploaded" || strStarts line "===== [SUCCESS]" then
    .milestoneT "Upload Succeeded"
  else if strContains line "[SUCCESS]" && strContains line "Successfully created" then
    .milestoneT "Build Succeeded"
  else if strContains line "[FAILED]" ||
      (strContains line "error" && strContains line "compilation terminated") ||
      strStarts line "===== [FAILED]" then
    .milestoneT "Build Failed"
  else if strContains line "ERROR" && strContains line "Authentication invalid" then
    .milestoneT "Upload Failed: Authentication Invalid"
  else if strContains line "Error:" && strContains line "Could not find" && strContains line ".local" then
    .milestoneT "Upload Failed: Host not found"
  else if strContains line "ERROR" && strContains line "Connecting to" then
    .milestoneT ("Upload Failed: " ++ pyStrip line)
  else if strStarts line "Error:" then
    .milestoneT ("Error: " ++ pyStrip (pyDrop 6 line))
  else
    match progressMatch line.data with
    | some (n, b, p) => .progressT n b p
    | none =>
      match downloadMatch line.data with
      | some (n, b, p) => .progressT n b p
      | none =>
        if strContains line "Looking for upload port..." then
          .milestoneT "Finding Device..."
        else if strContains line "Uploading" && strContains line ".bin" then
          .milestoneT "Uploading Firmware"
        else if strContains line "Connecting to" then
          .milestoneT (pyStrip line)
        else if strContains line "merging binaries into" || strContains line "esp32_copy_ota_bin" ||
            (strContains line "Successfully created" && strContains line ".bin") then
          .milestoneT "Creating Final Binaries"
        else if strStarts line "RAM:" then
          .milestoneT "Calculating Firmware Size"
        else if strContains line "Linking .pioenvs" && strContains line "firmware.elf" then
          .milestoneT "Linking Firmware"
        else if strContains line "Linking .pioenvs" && strContains line "bootloader.elf" then
          .milestoneT "Linking Bootloader"
        else if strContains line "Generating project linker script" then
          .milestoneT "Generating Linker Script"
        else if strContains line "Compiling .pioenvs" || strContains line "Archiving .pioenvs" then
          .compileArchiveT
        else if strContains line "scons:" || strContains line "Platformio:" ||
            strContains line "NOTICE:" || strContains line "Resolving" ||
            strStarts line "Platform Manager: Installing" ||
            strStarts line "Tool Manager: Installing" ||
            strStarts line "Library Manager: Installing" then
          .milestoneT "Installing Dependencies"
        else if strContains line "Generating C++ code" then
          .milestoneT "Generating C++"
        else if strContains line "Running: platformio" || strContains line "Initializing Platformio" then
          .milestoneT "Initializing PlatformIO"
        else if strContains line "Validating" then
          .milestoneT "Validating Config"
        else
          .logT

/-! ## Structured events (the dict payloads broadcast to subscribers) -/

/-- A structured `LogEvent` as placed on subscriber queues / SSE streams.
Each constructor mirrors one dict shape built by the source. -/
inductive Event where
  /-- `{'event': 'log', 'line': line}` -/
  | log (line : String)
  /-- `{'event': 'milestone', 'milestone': m, 'id': id}` with an optional `'line'` key. -/
  | milestone (milestone : String) (id : String) (line : Option String)
  /-- `{'event': 'progress', 'line': line, 'data': {'name': n, 'bar': b, 'percent': p}}` -/
  | progress (line : String) (name bar percent : String)
  /-- `{'event': 'update_summary', 'target_id': t, 'text': text}` -/
  | update_summary (target_id : Option String) (text : String)
  /-- `{'event': 'CLOSE'}` -/
  | close
deriving DecidableEq

/-! ## The stateful classifier `LogParser` (services.py lines 73-143)

`uuid.uuid4().hex` draws are modelled by an external supply `gen : Nat → String`
together with a draw counter threaded beside the parser state: the `k`-th draw
of an execution is `gen k`.  Live execution and replay use independent supplies,
exactly as two series of `uuid4()` calls are independent. -/

/-- The mutable fields set up by `LogParser.__init__`. -/
structure LogParser where
  current_milestone : String
  in_compile_step : Bool
  compile_count : Nat
  summary_id : Option String
  milestone_id : Option String
deriving DecidableEq

/-- A freshly constructed `LogParser()`. -/
def LogParser.init : LogParser :=
  ⟨"Starting...", false, 0, none, none⟩

/-- `LogParser._start_milestone` (services.py lines 82-87). -/
def start_milestone (gen : Nat → String) (p : LogParser) (k : Nat)
    (name : String) (line : Option String) : (LogParser × Nat) × List Event :=
  let mid := "step-" ++ gen k
  (({ p with current_milestone := name, milestone_id := some mid }, k + 1),
   [Event.milestone name mid line])

/-- `LogParser._close_compile_step` (services.py lines 89-97). -/
def close_compile_step (p : LogParser) (interrupted : Bool) : LogParser × List Event :=
  if p.in_compile_step then
    let summary_text := "Compiling C/C++ Sources & Archiving (" ++ toString p.compile_count ++ " files)"
    let summary_text := if interrupted then summary_text ++ " - Interrupted" else summary_text
    ({ p with in_compile_step := false, compile_count := 0 },
     [Event.update_summary p.summary_id summary_text])
  else (p, [])

/-- The milestones whose triggering line is suppressed (services.py line 125). -/
def suppressedMilestones : List String :=
  ["Upload Succeeded", "Build Succeeded", "Upload Failed: Authentication Invalid"]

/-- `LogParser.parse_line` (services.py lines 99-140). -/
def parse_line (gen : Nat → String) (p : LogParser) (k : Nat) (line : String) :
    (LogParser × Nat) × List Event :=
  match parse_log_line_type line with
  | .compileArchiveT =>
    if !p.in_compile_step then
      let (p1, ev1) := close_compile_step p false
      let sid := "step-" ++ gen k
      let p2 := { p1 with in_compile_step := true, compile_count := 1,
                          current_milestone := "Compiling C/C++ Sources & Archiving",
                          summary_id := some sid }
      ((p2, k + 1),
       ev1 ++ [Event.milestone "Compiling C/C++ Sources & Archiving" sid (some line)])
    else
      let p2 := { p with compile_count := p.compile_count + 1 }
      let evs :=
        if p2.compile_count % 25 == 0 then
          [Event.update_summary p.summary_id
            ("Compiling C/C++ Sources & Archiving (" ++ toString p2.compile_count ++ " files...)")]
        else []
      ((p2, k), evs ++ [Event.log line])
  | .milestoneT milestone_text =>
    let ((p1, k1), ev1) :=
      if p.current_milestone ≠ milestone_text then
        let (pa, eva) := close_compile_step p false
        let ((pb, kb), evb) := start_milestone gen pa k milestone_text none
        ((pb, kb), eva ++ evb)
      else ((p, k), [])
    let ev2 := if milestone_text ∈ suppressedMilestones then [] else [Event.log line]
    ((p1, k1), ev1 ++ ev2)
  | .progressT nm bar pct =>
    let milestone_text :=
      if nm = "RAM" ∨ nm = "Flash" then "Calculating Firmware Size"
      else if nm = "Downloading" ∨ nm = "Unpacking" then "Installing Dependencies"
      else p.current_milestone
    let ((p1, k1), ev1) :=
      if p.current_milestone ≠ milestone_text then
        let (pa, eva) := close_compile_step p false
        let ((pb, kb), evb) := start_milestone gen pa k milestone_text none
        ((pb, kb), eva ++ evb)
      else ((p, k), [])
    ((p1, k1), ev1 ++ [Event.progress line nm bar pct])
  | .logT => ((p, k), [Event.log line])

/-- `LogParser.finalize` (services.py lines 142-143): note the call site passes
no argument, so `interrupted` takes its default `False`. -/
def finalize (p : LogParser) : LogParser × List Event :=
  close_compile_step p false

/-- Feed a list of lines through the classifier, accumulating events. -/
def runLines (gen : Nat → String) (p : LogParser) (k : Nat) :
    List String → (LogParser × Nat) × List Event
  | [] => ((p, k), [])
  | line :: rest =>
    let ((p1, k1), evs) := parse_line gen p k line
    let ((p2, k2), evs2) := runLines gen p1 k1 rest
    ((p2, k2), evs ++ evs2)

-- Smoke tests of the classifier against known source behaviour.
example : parse_log_line_type "RAM:   [==        ]  18.3% (used 59968 bytes)" =
    .progressT "RAM" "[==        ]" "18.3%" := by decide
example : parse_log_line_type "Compiling .pioenvs/dev/src/main.o" = .compileArchiveT := by decide
example : parse_log_line_type "hello world" = .logT := by decide
example : parse_log_line_type "Validating Config" = .milestoneT "Validating Config" := by decide
example : parse_log_line_type "[FAILED] Error: Process returned code 1" = .milestoneT "Build Failed" := by
  decide

/-! ## The process runner `_run_esphome_task` (jobs.py lines 56-198)

The runner is modelled as the trace of atomic effects one execution performs,
in source order: job-record writes, transcript writes, broadcasts, the
artifact copy, the broadcaster-registry removal and the semaphore release.
External nondeterminism (subprocess output and exit code, the filesystem,
whether and where an exception escapes the `try` block) is an explicit
environment.  A crash at an arbitrary point of the `try` block is modelled by
truncating the block's effect list at that point and appending the
`except`-handler effects; the `finally` effects always follow. -/

/-- One atomic effect of a runner (or dispatcher) execution. -/
inductive Act where
  /-- `JOBS_DB[job_id]["status"] = v` -/
  | status (v : String)
  /-- `JOBS_DB[job_id]["error"] = v` -/
  | set_error (v : String)
  /-- `JOBS_DB[job_id]["binary_file"] = v` -/
  | set_binary (v : String)
  /-- `shutil.copy(src, dst)` -/
  | copy_binary (src dst : String)
  /-- `log_file.write(s)` -/
  | log_write (s : String)
  /-- `_broadcast_log(job_id, e)` -/
  | broadcast (e : Event)
  /-- `del JOB_LOG_BROADCASTER[job_id]` -/
  | unregister
  /-- `worker_semaphore.release()` -/
  | release
deriving DecidableEq

/-- Environment of one `_run_esphome_task` execution: its arguments, the
configuration it reads, and every external source of nondeterminism. -/
structure RunnerEnv where
  job_id : String
  project_dir : String
  yaml_filename : String
  device_name : String
  job_type : String
  target_device : Option String
  api_password : Option String
  /-- config values read by the runner. -/
  appVersion : String
  pioCacheDir : String
  binariesDir : String
  /-- timestamps and derived strings (opaque: the runner only embeds them in text). -/
  endISO : String
  durationStr : String
  /-- the subprocess's stdout lines (newlines already split off) and exit code. -/
  processLines : List String
  returncode : Int
  /-- `os.path.isdir(build_dir)` and the `os.walk(build_dir)` listing
  (root, files) used by `_find_firmware_bin`. -/
  fsIsDir : Bool
  fsWalk : List (String × List String)
  /-- result of the `os.path.exists(source_binary_path)` re-check. -/
  fsExistsBin : Bool
  /-- `some k`: an exception escapes the `try` block after `k` of its effects. -/
  crashAt : Option Nat
  crashMsg : String
  /-- whether the crash handler's transcript append itself succeeds
  (`except: pass` swallows its failure together with the broadcast). -/
  crashLogOk : Bool
  /-- the `uuid4().hex` value drawn by the crash handler's milestone event. -/
  crashId : String
  /-- the `uuid4().hex` supply consumed by this execution's `LogParser`. -/
  gen : Nat → String

/-- Python truthiness of an optional string (`if target_device:`). -/
def truthyOpt : Option String → Bool
  | none => false
  | some s => !s.isEmpty

/-- jobs.py line 67: `if job_type == "upload" and target_device:` — any other
combination is reassigned to `"compile"` (line 78). -/
def resolvedType (env : RunnerEnv) : String :=
  if env.job_type = "upload" && truthyOpt env.target_device then "upload" else "compile"

/-- The external command line (jobs.py lines 70-81). -/
def commandOf (env : RunnerEnv) : List String :=
  if resolvedType env = "upload" then
    ["platformio", "run", "--target", "upload", "--project-dir", env.project_dir,
     "--environment", env.device_name, "--upload-port", env.target_device.getD ""]
  else
    ["esphome", "compile", env.yaml_filename]

/-- `' '.join(cmd)`. -/
def joinSp : List String → String
  | [] => ""
  | [s] => s
  | s :: rest => s ++ " " ++ joinSp rest

/-- `"-" * 40`. -/
def dashes40 : String :=
  ⟨List.replicate 40 '-'⟩

/-- `services._find_firmware_bin` (services.py lines 163-178): walk the build
directory, return the first root whose files contain `firmware.bin`. -/
def find_firmware_bin (env : RunnerEnv) : Option String :=
  if env.fsIsDir then
    (env.fsWalk.find? (fun rootFiles => rootFiles.2.contains "firmware.bin")).map
      (fun rootFiles => rootFiles.1 ++ "/firmware.bin")
  else none

/-- The fixed transcript header written at jobs.py lines 95-102.  Each
`log_write` is one `log_file.write(...)` call, text included verbatim
(raw subprocess lines keep their trailing newline, line 122). -/
def headerActs (env : RunnerEnv) : List Act :=
  [Act.log_write ("--- RUNNING SCRIPT VERSION " ++ env.appVersion ++ " ---\n"),
   Act.log_write ("--- Starting " ++ pyUpper (resolvedType env) ++ " job " ++ env.job_id ++
     " for project \x27" ++ env.device_name ++ "\x27 ---\n")] ++
  (if truthyOpt env.api_password then
    [Act.log_write "Env: ESPHOME_API_PASSWORD set to \x27********\x27\n"] else []) ++
  [Act.log_write ("Command: " ++ joinSp (commandOf env) ++ "\n"),
   Act.log_write ("Project Dir: " ++ env.project_dir ++ "\n"),
   Act.log_write ("PlatformIO Cache: " ++ env.pioCacheDir ++ "\n"),
   Act.log_write (dashes40 ++ "\n\n")]

/-- The synthetic line fed to the parser before the process starts
(jobs.py lines 105-108). -/
def initLine (env : RunnerEnv) : String :=
  if resolvedType env = "compile" then "Validating Config"
  else "Starting Upload to " ++ env.target_device.getD ""

/-- Parser state and events after the synthetic initial line. -/
def initParse (env : RunnerEnv) : (LogParser × Nat) × List Event :=
  parse_line env.gen LogParser.init 0 (initLine env)

/-- `last_lines.append(x); if len > 10: pop(0)` (jobs.py lines 126-127). -/
def lastLinesPush (ls : List String) (x : String) : List String :=
  let ls := ls ++ [x]
  if ls.length > 10 then ls.drop 1 else ls

/-- The per-line loop over subprocess output (jobs.py lines 121-129): write the
raw line to the transcript, skip blank lines, maintain the 10-line window, feed
the stripped line to the classifier and broadcast its events. -/
def procLoop (gen : Nat → String) (p : LogParser) (k : Nat) (ll : List String) :
    List String → ((LogParser × Nat) × List String × List Act)
  | [] => ((p, k), ll, [])
  | line :: rest =>
    let ls := pyStrip line
    if ls.isEmpty then
      let ((p2, k2), ll2, acts) := procLoop gen p k ll rest
      ((p2, k2), ll2, Act.log_write (line ++ "\n") :: acts)
    else
      let ll1 := lastLinesPush ll ls
      let ((p1, k1), evs) := parse_line gen p k ls
      let ((p2, k2), ll2, acts) := procLoop gen p1 k1 ll1 rest
      ((p2, k2), ll2,
        Act.log_write (line ++ "\n") :: (evs.map Act.broadcast ++ acts))

/-- State, trailing window and effects after the subprocess output loop. -/
def loopResult (env : RunnerEnv) : ((LogParser × Nat) × List String × List Act) :=
  procLoop env.gen (initParse env).1.1 (initParse env).1.2 [] env.processLines

/-- The `last_lines` window at process exit. -/
def lastLinesOf (env : RunnerEnv) : List String :=
  (loopResult env).2.1

/-- Transcript trailer written after process exit (jobs.py lines 134-135). -/
def trailerActs (env : RunnerEnv) : List Act :=
  [Act.log_write ("\n" ++ dashes40 ++ "\n--- Job finished at " ++ env.endISO ++ " ---\n"),
   Act.log_write ("Return Code: " ++ toString env.returncode ++ "\nDuration: " ++
     env.durationStr ++ " seconds\n")]

/-- `parser.finalize()` at jobs.py line 137. -/
def finalizeResult (env : RunnerEnv) : LogParser × List Event :=
  finalize (loopResult env).1.1

/-- Parser state (and draw counter) after `finalize()`. -/
def postFinalizeState (env : RunnerEnv) : LogParser × Nat :=
  ((finalizeResult env).1, (loopResult env).1.2)

/-- jobs.py line 144. -/
def is_upload_success (env : RunnerEnv) : Bool :=
  (lastLinesOf env).any (fun l =>
    strContains l "Successfully uploaded" || strContains l "===== [SUCCESS]")

/-- jobs.py line 145. -/
def is_auth_fail (env : RunnerEnv) : Bool :=
  (lastLinesOf env).any (fun l => strContains l "Authentication invalid")

/-- The artifact name `f"{job_id}-{device_name}-firmware.bin"` (jobs.py line 152). -/
def finalBinaryName (env : RunnerEnv) : String :=
  env.job_id ++ "-" ++ env.device_name ++ "-firmware.bin"

/-- The `else` of the artifact search (jobs.py lines 163-170). -/
def artifactMissingActs (env : RunnerEnv) : List Act :=
  let log_msg := "Source binary not found in " ++ env.project_dir
  [Act.log_write ("Status: FAILED (" ++ log_msg ++ ")\n"),
   Act.status "failed",
   Act.set_error log_msg] ++
  ((parse_line env.gen (postFinalizeState env).1 (postFinalizeState env).2
      ("[FAILED] Error: " ++ log_msg)).2.map Act.broadcast)

/-- The status-determination block (jobs.py lines 147-179). -/
def tailActs (env : RunnerEnv) : List Act :=
  if env.returncode = 0 ∧ (is_upload_success env = true ∨ resolvedType env = "compile") then
    Act.log_write "Status: SUCCESS\n" ::
    (match find_firmware_bin env with
     | some source_binary_path =>
       if env.fsExistsBin then
         [Act.copy_binary source_binary_path (env.binariesDir ++ "/" ++ finalBinaryName env),
          Act.status "success",
          Act.set_binary (finalBinaryName env)] ++
         (if resolvedType env = "compile" then
           (parse_line env.gen (postFinalizeState env).1 (postFinalizeState env).2
              "[SUCCESS] Build Succeeded").2.map Act.broadcast
         else [])
       else artifactMissingActs env
     | none => artifactMissingActs env)
  else
    [Act.log_write "Status: FAILED\n",
     Act.status "failed",
     Act.set_error (if is_auth_fail env then "Upload failed: Authentication Invalid."
                    else "Process failed. Check log for details.")] ++
    ((parse_line env.gen (postFinalizeState env).1 (postFinalizeState env).2
        ("[FAILED] Error: Process returned code " ++ toString env.returncode)).2.map Act.broadcast)

/-- The full effect list of the `try` block (jobs.py lines 93-179), in source
order: header, synthetic first line, output loop, trailer, finalize, status
determination. -/
def bodyActs (env : RunnerEnv) : List Act :=
  headerActs env ++
  (initParse env).2.map Act.broadcast ++
  (loopResult env).2.2 ++
  trailerActs env ++
  (finalizeResult env).2.map Act.broadcast ++
  tailActs env

/-- The `except Exception` handler (jobs.py lines 181-191): mark the job
failed, then best-effort append to the transcript and broadcast a crash
milestone (a failure of those two is swallowed by the inner `except: pass`). -/
def crashActs (env : RunnerEnv) : List Act :=
  [Act.status "failed",
   Act.set_error ("Python worker crashed: " ++ env.crashMsg)] ++
  (if env.crashLogOk then
    [Act.log_write ("\n--- PYTHON WORKER CRASHED ---\n" ++ env.crashMsg ++ "\n"),
     Act.broadcast (Event.milestone "Server Crash" ("step-" ++ env.crashId)
       (some ("Error: " ++ env.crashMsg)))]
  else [])

/-- The `finally` block (jobs.py lines 192-196): broadcast `CLOSE`, drop the
job's broadcaster entry, release the worker slot. -/
def finallyActs : List Act :=
  [Act.broadcast Event.close, Act.unregister, Act.release]

/-- Everything a runner execution does between entering the `try` block and
reaching `finally`: the whole `try` body if no exception escapes, otherwise a
prefix of it followed by the `except` handler. -/
def midActs (env : RunnerEnv) : List Act :=
  match env.crashAt with
  | none => bodyActs env
  | some k => (bodyActs env).take k ++ crashActs env

/-- The effect trace of one whole `_run_esphome_task` execution: the
`"running"` status write precedes the `try` block (jobs.py lines 62-64); a
crash truncates the `try` effects and runs the handler; `finally` always runs. -/
def runnerActs (env : RunnerEnv) : List Act :=
  Act.status "running" :: (midActs env ++ finallyActs)

/-- The dispatcher's defensive path (jobs.py lines 215-219): a dequeued job id
missing from `JOBS_DB` is discarded and its freshly acquired slot released. -/
def managerDiscardActs : List Act :=
  [Act.release]

/-! ## Derived observations on a trace -/

/-- The job-record fields the modelled effects touch.  At submission the
record is created with `status "pending"`, `error None`, `binary_file None`
(routes.py lines 84-100 and 254-271). -/
structure JobRecord where
  status : String
  error : Option String
  binary_file : Option String
deriving DecidableEq

/-- The record as created at submission. -/
def initRecord : JobRecord :=
  ⟨"pending", none, none⟩

/-- Apply one effect to the job record (non-record effects are no-ops). -/
def applyAct (r : JobRecord) : Act → JobRecord
  | .status v => { r with status := v }
  | .set_error v => { r with error := some v }
  | .set_binary v => { r with binary_file := some v }
  | _ => r

/-- The job record after a whole runner execution. -/
def finalRecord (env : RunnerEnv) : JobRecord :=
  (runnerActs env).foldl applyAct initRecord

/-- The events broadcast by a trace, in order. -/
def broadcastsOf (acts : List Act) : List Event :=
  acts.filterMap (fun a => match a with | .broadcast e => some e | _ => none)

/-- The events a live execution publishes for its job, in order. -/
def liveBroadcasts (env : RunnerEnv) : List Event :=
  broadcastsOf (runnerActs env)

/-- The successive values written to the job's `status` field. -/
def statusWrites (acts : List Act) : List String :=
  acts.filterMap (fun a => match a with | .status v => some v | _ => none)

/-- Collapse consecutive duplicates (re-writing an equal value does not change
the value the field takes). -/
def dedupConsec : List String → List String
  | [] => []
  | [a] => [a]
  | a :: b :: rest => if a = b then dedupConsec (b :: rest) else a :: dedupConsec (b :: rest)

/-- The sequence of values the job's `status` field takes over its lifetime:
`"pending"` at creation, then every distinct written value. -/
def statusValues (env : RunnerEnv) : List String :=
  dedupConsec ("pending" :: statusWrites (runnerActs env))

/-- Number of semaphore releases in a trace. -/
def isRelease : Act → Bool
  | .release => true
  | _ => false

/-- Count of `worker_semaphore.release()` calls in a trace. -/
def countReleases (acts : List Act) : Nat :=
  acts.countP isRelease

/-- The transcript text persisted by a runner execution (concatenation of all
`log_file.write` payloads, jobs.py). -/
def transcriptText (env : RunnerEnv) : List Char :=
  ((runnerActs env).filterMap (fun a => match a with | .log_write s => some s | _ => none)).foldr
    (fun s acc => s.data ++ acc) []

/-- Split a character stream at newlines, as iterating a Python text file does
(the final chunk may lack a newline; trailing empties are blank lines). -/
def splitNlL : List Char → List (List Char)
  | [] => [[]]
  | c :: rest =>
    let r := splitNlL rest
    if c = '\n' then [] :: r
    else match r with
      | [] => [[c]]
      | h :: t => (c :: h) :: t

/-- The persisted transcript, as the list of lines replay iterates over. -/
def transcriptLines (env : RunnerEnv) : List String :=
  (splitNlL (transcriptText env)).map (fun l => ⟨l⟩)

/-! ## The replay path `replay_log_events` (routes.py lines 504-529) -/

/-- The housekeeping filter of the replay loop (routes.py lines 512-517),
applied to the stripped line. -/
def isSkippedReplayLine (l : String) : Bool :=
  strStarts l "---" || strStarts l "Command:" || strStarts l "Project Dir:" ||
  strStarts l "PlatformIO Cache:" || strStarts l "Env:"

/-- The replay loop over transcript lines (routes.py lines 509-519). -/
def replayLoop (gen : Nat → String) (p : LogParser) (k : Nat) :
    List String → ((LogParser × Nat) × List Event)
  | [] => ((p, k), [])
  | line :: rest =>
    let ls := pyStrip line
    if ls.isEmpty || isSkippedReplayLine ls then replayLoop gen p k rest
    else
      let ((p1, k1), evs) := parse_line gen p k ls
      let ((p2, k2), evs2) := replayLoop gen p1 k1 rest
      ((p2, k2), evs ++ evs2)

/-- How one replay run of `replay_log_events` ends: the file was read whole,
it was missing, or some exception interrupted the loop after a prefix. -/
inductive ReplayEnv where
  | ok (lines : List String)
  | notFound
  | errAt (consumed : List String) (msg : String)

/-- The full event sequence one `replay_log_events` generator yields: parser
events (through a fresh `LogParser`), then `finalize()` events, or an error
milestone — and, from the `finally`, always a terminating `CLOSE`. -/
def replayEvents (gen : Nat → String) : ReplayEnv → List Event
  | .ok lines =>
    let ((p, _), evs) := replayLoop gen LogParser.init 0 lines
    evs ++ (finalize p).2 ++ [Event.close]
  | .notFound =>
    [Event.milestone "Error: Log file not found" "err" none, Event.close]
  | .errAt consumed msg =>
    (replayLoop gen LogParser.init 0 consumed).2 ++
    [Event.milestone ("Error: " ++ msg) "err" none, Event.close]

/-! ## The broadcaster queues (jobs.py lines 46-54, routes.py lines 487-502)

`queue.Queue(maxsize)` semantics: `put_nowait` raises `Full` exactly when
`0 < maxsize <= qsize()`; a `maxsize` of zero means an infinite queue. -/

/-- A Python `queue.Queue` holding events. -/
structure PyQueue where
  maxsize : Nat
  items : List Event
deriving DecidableEq

/-- `q.put_nowait(e)`: `none` models the `queue.Full` exception. -/
def put_nowait (q : PyQueue) (e : Event) : Option PyQueue :=
  if 0 < q.maxsize ∧ q.maxsize ≤ q.items.length then none
  else some { q with items := q.items ++ [e] }

/-- The `listener_queue = queue.Queue()` created by `subscribe_to_live_events`
(routes.py line 488): the default `maxsize` is 0. -/
def newListenerQueue : PyQueue :=
  ⟨0, []⟩

/-- `_broadcast_log` over a job's subscriber list (jobs.py lines 46-54): a
non-blocking put into each queue, swallowing `queue.Full` for that queue. -/
def broadcast_log (qs : List PyQueue) (e : Event) : List PyQueue :=
  qs.map (fun q => match put_nowait q e with | some q2 => q2 | none => q)

/-! ## The dispatcher as a transition system (jobs.py, jobs_state.py)

For the admission bound the concurrent system is modelled as an interleaving
transition relation over the shared state: the semaphore counter
(`worker_semaphore`, initially `MAX_CONCURRENT_JOBS`, jobs_state.py line 20)
and the set of submitted jobs.  Each job carries the program position of the
dispatcher/runner thread working on it:

* `queued`      — created with status `pending` and enqueued (routes.py);
* `acquired`    — the manager dequeued it and `worker_semaphore.acquire()`
                  returned (jobs.py line 210);
* `runningP`    — the runner thread executed `JOBS_DB[job_id]["status"] =
                  "running"` (jobs.py line 63);
* `terminalP`   — the runner (or its crash handler) wrote the terminal status
                  (jobs.py lines 156/168/175/186), still before `finally`;
* `done`        — `worker_semaphore.release()` ran (jobs.py line 196 or 218).

The order of the transitions available to a single job is exactly the order of
those statements in `worker_manager_thread` / `_run_esphome_task`; `runnerActs`
above witnesses that the terminal status write precedes the `finally` release
on every exit path. -/

/-- Job status as stored in the record (`JOBS_DB[..]["status"]`). -/
inductive JStatus where
  | pending
  | runningS
  | success
  | failed
deriving DecidableEq

/-- Thread position for one job, as described above. -/
inductive Phase where
  | queued
  | acquired
  | runningP
  | terminalP
  | done
deriving DecidableEq

/-- One submitted job: whether its record is (still) in `JOBS_DB`, the
position of the thread driving it, and its status field. -/
structure TJob where
  inDb : Bool
  phase : Phase
  st : JStatus
deriving DecidableEq

/-- Shared state: free semaphore permits and all submitted jobs. -/
structure SysState where
  sem : Nat
  jobs : List TJob
deriving DecidableEq

/-- Boot state: no jobs, `MAX_CONCURRENT_JOBS` free permits. -/
def initState (maxJobs : Nat) : SysState :=
  ⟨maxJobs, []⟩

/-- Interleaved atomic steps of the dispatcher loop and the runner threads. -/
inductive SysStep : SysState → SysState → Prop where
  /-- A new submission: record created with status `pending`, id enqueued
  (routes.py lines 83-106).  `b` says whether the record will still be found
  when dequeued. -/
  | submit (s : SysState) (b : Bool) :
      SysStep s ⟨s.sem, s.jobs ++ [⟨b, Phase.queued, JStatus.pending⟩]⟩
  /-- The manager dequeues the job and `worker_semaphore.acquire()` returns
  (jobs.py lines 207-210); blocks unless a permit is free. -/
  | acquire (s : SysState) (i : Nat) (h : i < s.jobs.length)
      (hq : (s.jobs.get ⟨i, h⟩).phase = Phase.queued) (hs : s.sem ≠ 0) :
      SysStep s ⟨s.sem - 1, s.jobs.set i { s.jobs.get ⟨i, h⟩ with phase := Phase.acquired }⟩
  /-- The dequeued id is missing from `JOBS_DB`: discard and release
  (jobs.py lines 213-219). -/
  | discard (s : SysState) (i : Nat) (h : i < s.jobs.length)
      (ha : (s.jobs.get ⟨i, h⟩).phase = Phase.acquired)
      (hdb : (s.jobs.get ⟨i, h⟩).inDb = false) :
      SysStep s ⟨s.sem + 1, s.jobs.set i { s.jobs.get ⟨i, h⟩ with phase := Phase.done }⟩
  /-- The spawned runner thread marks the job running (jobs.py line 63). -/
  | begin (s : SysState) (i : Nat) (h : i < s.jobs.length)
      (ha : (s.jobs.get ⟨i, h⟩).phase = Phase.acquired)
      (hdb : (s.jobs.get ⟨i, h⟩).inDb = true) :
      SysStep s ⟨s.sem, s.jobs.set i
        { s.jobs.get ⟨i, h⟩ with phase := Phase.runningP, st := JStatus.runningS }⟩
  /-- The runner (or its crash handler) writes the terminal status
  (jobs.py lines 156/168/175/186). -/
  | finish (s : SysState) (i : Nat) (h : i < s.jobs.length) (t : JStatus)
      (ha : (s.jobs.get ⟨i, h⟩).phase = Phase.runningP)
      (ht : t = JStatus.success ∨ t = JStatus.failed) :
      SysStep s ⟨s.sem, s.jobs.set i
        { s.jobs.get ⟨i, h⟩ with phase := Phase.terminalP, st := t }⟩
  /-- The runner's `finally` releases the permit (jobs.py line 196). -/
  | release (s : SysState) (i : Nat) (h : i < s.jobs.length)
      (ha : (s.jobs.get ⟨i, h⟩).phase = Phase.terminalP) :
      SysStep s ⟨s.sem + 1, s.jobs.set i { s.jobs.get ⟨i, h⟩ with phase := Phase.done }⟩

/-- States reachable from boot with capacity `maxJobs`. -/
inductive Reach (maxJobs : Nat) : SysState → Prop where
  | boot : Reach maxJobs (initState maxJobs)
  | next {s s2 : SysState} : Reach maxJobs s → SysStep s s2 → Reach maxJobs s2

/-- A job in any of these phases holds a semaphore permit. -/
def holdsSlot (j : TJob) : Bool :=
  match j.phase with
  | Phase.acquired | Phase.runningP | Phase.terminalP => true
  | _ => false

/-- The job's status field reads `running`. -/
def isRunningJob (j : TJob) : Bool :=
  j.st = JStatus.runningS

/-- Number of jobs whose status field is `running`. -/
def runningCount (s : SysState) : Nat :=
  s.jobs.countP isRunningJob

/-! ## Generic list lemmas used by the invariant proofs -/

theorem countP_set_eq {α : Type} (p : α → Bool) :
    ∀ (l : List α) (i : Nat) (x : α) (h : i < l.length),
      (l.set i x).countP p + (if p (l.get ⟨i, h⟩) then 1 else 0) =
        l.countP p + (if p x then 1 else 0) := by
  intro l
  induction l with
  | nil => intro i x h; simp at h
  | cons a t ih =>
    intro i x h
    cases i with
    | zero =>
      simp [List.countP_cons]
      by_cases hx : p x <;> by_cases ha : p a <;> simp [hx, ha]
    | succ i =>
      have hlt : i < t.length := by simpa using h
      have hrec := ih i x hlt
      simp only [List.get_eq_getElem] at hrec
      simp only [List.set, List.countP_cons, List.get_eq_getElem, List.getElem_cons_succ]
      by_cases ha : p a <;> simp [ha] <;> omega

theorem countP_le_of_imp {α : Type} {p q : α → Bool} :
    ∀ {l : List α}, (∀ a ∈ l, p a = true → q a = true) → l.countP p ≤ l.countP q := by
  intro l
  induction l with
  | nil => intro _; simp
  | cons a t ih =>
    intro hpq
    have ht := ih (fun b hb => hpq b (List.mem_cons_of_mem a hb))
    have ha := hpq a (List.mem_cons_self a t)
    simp [List.countP_cons]
    by_cases hp : p a
    · simp [hp, ha hp]; omega
    · by_cases hq : q a <;> simp [hp, hq] <;> omega

theorem mem_of_mem_set {α : Type} :
    ∀ {l : List α} {i : Nat} {x a : α}, a ∈ l.set i x → a = x ∨ a ∈ l := by
  intro l
  induction l with
  | nil => intro i x a ha; simp [List.set] at ha
  | cons b t ih =>
    intro i x a ha
    cases i with
    | zero =>
      rcases List.mem_cons.1 ha with h | h
      · exact Or.inl h
      · exact Or.inr (List.mem_cons_of_mem b h)
    | succ i =>
      rcases List.mem_cons.1 ha with h | h
      · exact Or.inr (h ▸ List.mem_cons_self b t)
      · rcases ih h with h2 | h2
        · exact Or.inl h2
        · exact Or.inr (List.mem_cons_of_mem b h2)

/-! ## The admission invariant -/

/-- Inductive invariant of the dispatcher system: the free permits plus the
permits held by in-flight jobs sum to the configured capacity, and every job
whose status reads `running` is driven by a thread between its `status =
"running"` write and its terminal write (hence holds a permit). -/
def SysInv (maxJobs : Nat) (s : SysState) : Prop :=
  s.sem + s.jobs.countP holdsSlot = maxJobs ∧
  ∀ j ∈ s.jobs, j.st = JStatus.runningS → j.phase = Phase.runningP

theorem sysInv_boot (maxJobs : Nat) : SysInv maxJobs (initState maxJobs) := by
  constructor
  · simp [initState]
  · intro j hj; simp [initState] at hj

theorem sysInv_step {maxJobs : Nat} {s s2 : SysState}
    (hinv : SysInv maxJobs s) (hstep : SysStep s s2) : SysInv maxJobs s2 := by
  obtain ⟨hsum, hrun⟩ := hinv
  cases hstep with
  | submit b =>
    refine ⟨?_, ?_⟩
    · simpa [List.countP_append, List.countP_cons, holdsSlot] using hsum
    · intro j hj
      rcases List.mem_append.1 hj with hj | hj
      · exact hrun j hj
      · simp at hj; subst hj; intro hst; simp at hst
  | acquire i h hq hs =>
    have hc := countP_set_eq holdsSlot s.jobs i
      { s.jobs.get ⟨i, h⟩ with phase := Phase.acquired } h
    have hph2 : s.jobs[i].phase = Phase.queued := hq
    have hgold : (if holdsSlot (s.jobs.get ⟨i, h⟩) = true then 1 else 0) = 0 := by
      simp [holdsSlot, hph2]
    have hgnew :
        (if holdsSlot { s.jobs.get ⟨i, h⟩ with phase := Phase.acquired } = true then 1 else 0) = 1 := by
      simp [holdsSlot]
    rw [hgold, hgnew] at hc
    refine ⟨?_, ?_⟩
    · show s.sem - 1 +
        List.countP holdsSlot (s.jobs.set i { s.jobs.get ⟨i, h⟩ with phase := Phase.acquired }) = maxJobs
      omega
    · intro j hj
      rcases mem_of_mem_set hj with rfl | hj
      · intro hst
        simp only [TJob.st] at hst
        have hph := hrun _ (s.jobs.get_mem i h) hst
        rw [hph] at hq; cases hq
      · exact hrun j hj
  | discard i h ha hdb =>
    have hc := countP_set_eq holdsSlot s.jobs i
      { s.jobs.get ⟨i, h⟩ with phase := Phase.done } h
    have hph2 : s.jobs[i].phase = Phase.acquired := ha
    have hgold : (if holdsSlot (s.jobs.get ⟨i, h⟩) = true then 1 else 0) = 1 := by
      simp [holdsSlot, hph2]
    have hgnew :
        (if holdsSlot { s.jobs.get ⟨i, h⟩ with phase := Phase.done } = true then 1 else 0) = 0 := by
      simp [holdsSlot]
    rw [hgold, hgnew] at hc
    refine ⟨?_, ?_⟩
    · show s.sem + 1 +
        List.countP holdsSlot (s.jobs.set i { s.jobs.get ⟨i, h⟩ with phase := Phase.done }) = maxJobs
      omega
    · intro j hj
      rcases mem_of_mem_set hj with rfl | hj
      · intro hst
        simp only [TJob.st] at hst
        have hph := hrun _ (s.jobs.get_mem i h) hst
        rw [hph] at ha; cases ha
      · exact hrun j hj
  | begin i h ha hdb =>
    have hc := countP_set_eq holdsSlot s.jobs i
      { s.jobs.get ⟨i, h⟩ with phase := Phase.runningP, st := JStatus.runningS } h
    have hph2 : s.jobs[i].phase = Phase.acquired := ha
    have hgold : (if holdsSlot (s.jobs.get ⟨i, h⟩) = true then 1 else 0) = 1 := by
      simp [holdsSlot, hph2]
    have hgnew :
        (if holdsSlot { s.jobs.get ⟨i, h⟩ with phase := Phase.runningP, st := JStatus.runningS } = true then 1 else 0) = 1 := by
      simp [holdsSlot]
    rw [hgold, hgnew] at hc
    refine ⟨?_, ?_⟩
    · show s.sem +
        List.countP holdsSlot (s.jobs.set i { s.jobs.get ⟨i, h⟩ with phase := Phase.runningP, st := JStatus.runningS }) = maxJobs
      omega
    · intro j hj
      rcases mem_of_mem_set hj with rfl | hj
      · intro _; rfl
      · exact hrun j hj
  | finish i h t ha ht =>
    have hc := countP_set_eq holdsSlot s.jobs i
      { s.jobs.get ⟨i, h⟩ with phase := Phase.terminalP, st := t } h
    have hph2 : s.jobs[i].phase = Phase.runningP := ha
    have hgold : (if holdsSlot (s.jobs.get ⟨i, h⟩) = true then 1 else 0) = 1 := by
      simp [holdsSlot, hph2]
    have hgnew :
        (if holdsSlot { s.jobs.get ⟨i, h⟩ with phase := Phase.terminalP, st := t } = true then 1 else 0) = 1 := by
      simp [holdsSlot]
    rw [hgold, hgnew] at hc
    refine ⟨?_, ?_⟩
    · show s.sem +
        List.countP holdsSlot (s.jobs.set i { s.jobs.get ⟨i, h⟩ with phase := Phase.terminalP, st := t }) = maxJobs
      omega
    · intro j hj
      rcases mem_of_mem_set hj with rfl | hj
      · intro hst
        simp only [TJob.st] at hst
        rcases ht with rfl | rfl <;> cases hst
      · exact hrun j hj
  | release i h ha =>
    have hc := countP_set_eq holdsSlot s.jobs i
      { s.jobs.get ⟨i, h⟩ with phase := Phase.done } h
    have hph2 : s.jobs[i].phase = Phase.terminalP := ha
    have hgold : (if holdsSlot (s.jobs.get ⟨i, h⟩) = true then 1 else 0) = 1 := by
      simp [holdsSlot, hph2]
    have hgnew :
        (if holdsSlot { s.jobs.get ⟨i, h⟩ with phase := Phase.done } = true then 1 else 0) = 0 := by
      simp [holdsSlot]
    rw [hgold, hgnew] at hc
    refine ⟨?_, ?_⟩
    · show s.sem + 1 +
        List.countP holdsSlot (s.jobs.set i { s.jobs.get ⟨i, h⟩ with phase := Phase.done }) = maxJobs
      omega
    · intro j hj
      rcases mem_of_mem_set hj with rfl | hj
      · intro hst
        simp only [TJob.st] at hst
        have hph := hrun _ (s.jobs.get_mem i h) hst
        rw [hph] at ha; cases ha
      · exact hrun j hj

theorem sysInv_reach {maxJobs : Nat} {s : SysState} (h : Reach maxJobs s) :
    SysInv maxJobs s := by
  induction h with
  | boot => exact sysInv_boot maxJobs
  | next _ hstep ih => exact sysInv_step ih hstep

/-! ## Trace lemmas -/

/-- The classifier itself never emits `CLOSE` (that is the runner's and the
replay generator's `finally`). -/
theorem close_compile_step_no_close (p : LogParser) (b : Bool) :
    Event.close ∉ (close_compile_step p b).2 := by
  unfold close_compile_step
  by_cases hic : p.in_compile_step <;> simp [hic]

theorem start_milestone_no_close (gen : Nat → String) (p : LogParser) (k : Nat)
    (name : String) (line : Option String) :
    Event.close ∉ (start_milestone gen p k name line).2 := by
  simp [start_milestone]

theorem parse_line_no_close (gen : Nat → String) (p : LogParser) (k : Nat) (line : String) :
    Event.close ∉ (parse_line gen p k line).2 := by
  unfold parse_line
  rcases hpt : parse_log_line_type line with m | ⟨nm, bar, pct⟩ | _ | _ <;>
    simp only [close_compile_step, start_milestone] <;>
    first
    | (split_ifs <;> simp)
    | simp

theorem finalize_no_close (p : LogParser) : Event.close ∉ (finalize p).2 :=
  close_compile_step_no_close p false

/-- An effect that is neither a release nor a broadcast of `CLOSE`. -/
def benignAct (a : Act) : Bool :=
  match a with
  | Act.release => false
  | Act.broadcast Event.close => false
  | _ => true

theorem benign_broadcast_of_ne {e : Event} (h : e ≠ Event.close) :
    benignAct (Act.broadcast e) = true := by
  cases e <;> simp [benignAct] at h ⊢

theorem benign_map_broadcast {evs : List Event} (h : Event.close ∉ evs) :
    ∀ a ∈ evs.map Act.broadcast, benignAct a = true := by
  intro a ha
  rcases List.mem_map.1 ha with ⟨e, he, rfl⟩
  exact benign_broadcast_of_ne (fun hc => h (hc ▸ he))

theorem benign_headerActs (env : RunnerEnv) : ∀ a ∈ headerActs env, benignAct a = true := by
  rw [← List.all_eq_true]
  unfold headerActs
  by_cases hp : truthyOpt env.api_password = true <;> simp [hp, benignAct]

theorem benign_procLoop (gen : Nat → String) :
    ∀ (lines : List String) (p : LogParser) (k : Nat) (ll : List String),
      ∀ a ∈ (procLoop gen p k ll lines).2.2, benignAct a = true := by
  intro lines
  induction lines with
  | nil => intro p k ll a ha; simp [procLoop] at ha
  | cons line rest ih =>
    intro p k ll a ha
    unfold procLoop at ha
    by_cases hempty : (pyStrip line).isEmpty = true
    · simp [hempty] at ha
      rcases ha with rfl | ha
      · rfl
      · exact ih _ _ _ a ha
    · simp [hempty] at ha
      rcases ha with rfl | ⟨e, he, rfl⟩ | ha
      · rfl
      · exact benign_broadcast_of_ne
          (fun hc => (parse_line_no_close gen p k (pyStrip line)) (hc ▸ he))
      · exact ih _ _ _ a ha

theorem benign_trailerActs (env : RunnerEnv) : ∀ a ∈ trailerActs env, benignAct a = true := by
  rw [← List.all_eq_true]
  simp [trailerActs, benignAct]

theorem benign_artifactMissingActs (env : RunnerEnv) :
    ∀ a ∈ artifactMissingActs env, benignAct a = true := by
  intro a ha
  unfold artifactMissingActs at ha
  simp at ha
  rcases ha with rfl | rfl | rfl | ⟨e, he, rfl⟩
  · rfl
  · rfl
  · rfl
  · exact benign_broadcast_of_ne (fun hc => parse_line_no_close _ _ _ _ (hc ▸ he))

theorem benign_tailActs (env : RunnerEnv) : ∀ a ∈ tailActs env, benignAct a = true := by
  intro a ha
  unfold tailActs at ha
  split at ha
  · rcases List.mem_cons.1 ha with rfl | ha
    · rfl
    · rcases hf : find_firmware_bin env with _ | srcPath
      · rw [hf] at ha
        exact benign_artifactMissingActs env a ha
      · rw [hf] at ha
        by_cases hex : env.fsExistsBin = true
        · simp [hex] at ha
          rcases ha with rfl | rfl | rfl | ⟨hcomp, e, he, rfl⟩
          · rfl
          · rfl
          · rfl
          · exact benign_broadcast_of_ne (fun hc => parse_line_no_close _ _ _ _ (hc ▸ he))
        · simp [hex] at ha
          exact benign_artifactMissingActs env a ha
  · simp at ha
    rcases ha with rfl | rfl | rfl | ⟨e, he, rfl⟩
    · rfl
    · rfl
    · rfl
    · exact benign_broadcast_of_ne (fun hc => parse_line_no_close _ _ _ _ (hc ▸ he))

theorem benign_bodyActs (env : RunnerEnv) : ∀ a ∈ bodyActs env, benignAct a = true := by
  intro a ha
  unfold bodyActs at ha
  rcases List.mem_append.1 ha with ha | ha
  rcases List.mem_append.1 ha with ha | ha
  rcases List.mem_append.1 ha with ha | ha
  rcases List.mem_append.1 ha with ha | ha
  rcases List.mem_append.1 ha with ha | ha
  · exact benign_headerActs env a ha
  · exact benign_map_broadcast (parse_line_no_close _ _ _ _) a ha
  · exact benign_procLoop env.gen env.processLines _ _ _ a ha
  · exact benign_trailerActs env a ha
  · exact benign_map_broadcast (finalize_no_close _) a ha
  · exact benign_tailActs env a ha

theorem benign_crashActs (env : RunnerEnv) : ∀ a ∈ crashActs env, benignAct a = true := by
  rw [← List.all_eq_true]
  unfold crashActs
  by_cases hlog : env.crashLogOk = true <;> simp [hlog, benignAct]

theorem mem_take_mem {α : Type} : ∀ {l : List α} {k : Nat} {a : α}, a ∈ l.take k → a ∈ l := by
  intro l
  induction l with
  | nil => intro k a ha; simp at ha
  | cons b t ih =>
    intro k a ha
    cases k with
    | zero => simp at ha
    | succ k =>
      rcases List.mem_cons.1 ha with rfl | ha
      · exact List.mem_cons_self _ _
      · exact List.mem_cons_of_mem b (ih ha)

/-- Every effect of the `try` block and the crash handler — everything before
`finally` — is benign, for any crash point. -/
theorem benign_midActs (env : RunnerEnv) : ∀ a ∈ midActs env, benignAct a = true := by
  unfold midActs
  rcases hca : env.crashAt with _ | k
  · exact benign_bodyActs env
  · intro a ha
    rcases List.mem_append.1 ha with ha | ha
    · exact benign_bodyActs env a (mem_take_mem ha)
    · exact benign_crashActs env a ha

theorem countP_eq_zero_of {α : Type} {p : α → Bool} :
    ∀ {l : List α}, (∀ a ∈ l, p a = false) → l.countP p = 0 := by
  intro l
  induction l with
  | nil => intro _; simp
  | cons a t ih =>
    intro h
    rw [List.countP_cons]
    have ha := h a (List.mem_cons_self a t)
    have ht := ih (fun b hb => h b (List.mem_cons_of_mem a hb))
    simp [ha, ht]

theorem isRelease_false_of_benign {a : Act} (h : benignAct a = true) : isRelease a = false := by
  cases a <;> first | rfl | simp [benignAct] at h

theorem getLast?_append_one {α : Type} (l : List α) (x : α) : (l ++ [x]).getLast? = some x := by
  simp [List.getLast?_concat]

/-- `broadcastsOf` distributes over concatenation. -/
theorem broadcastsOf_append (l1 l2 : List Act) :
    broadcastsOf (l1 ++ l2) = broadcastsOf l1 ++ broadcastsOf l2 := by
  simp [broadcastsOf, List.filterMap_append]

/-- No benign trace broadcasts `CLOSE`. -/
theorem close_not_broadcast_of_benign {acts : List Act}
    (h : ∀ a ∈ acts, benignAct a = true) : Event.close ∉ broadcastsOf acts := by
  intro hmem
  rcases List.mem_filterMap.1 hmem with ⟨a, ha, heq⟩
  have hb := h a ha
  cases a <;> simp at heq
  subst heq
  simp [benignAct] at hb

/-- The event is the terminating `CLOSE`. -/
def isCloseE (e : Event) : Bool :=
  match e with
  | Event.close => true
  | _ => false

theorem isCloseE_false_of_ne {e : Event} (h : e ≠ Event.close) : isCloseE e = false := by
  cases e <;> simp [isCloseE] at h ⊢

/-- The broadcasts of a runner execution are its mid-section broadcasts
followed by exactly the final `CLOSE`. -/
theorem liveBroadcasts_eq (env : RunnerEnv) :
    liveBroadcasts env = broadcastsOf (midActs env) ++ [Event.close] := by
  show broadcastsOf (Act.status "running" :: (midActs env ++ finallyActs)) = _
  simp [broadcastsOf, List.filterMap_append, finallyActs]

/-- The replay loop only yields classifier events, never `CLOSE`. -/
theorem replayLoop_no_close (gen : Nat → String) :
    ∀ (lines : List String) (p : LogParser) (k : Nat),
      Event.close ∉ (replayLoop gen p k lines).2 := by
  intro lines
  induction lines with
  | nil => intro p k; simp [replayLoop]
  | cons line rest ih =>
    intro p k
    unfold replayLoop
    by_cases hskip : ((pyStrip line).isEmpty || isSkippedReplayLine (pyStrip line)) = true
    · simp only [hskip, if_true]
      exact ih p k
    · simp only [hskip, if_false]
      intro hmem
      rcases List.mem_append.1 hmem with hmem | hmem
      · exact parse_line_no_close gen p k (pyStrip line) hmem
      · exact ih _ _ hmem

/-! ## Determinism of the classifier modulo generated identifiers

The classifier's only dependence on anything but the line sequence and its own
prior state is the fresh `uuid4().hex` draw baked into `'id'`/`'target_id'`
fields.  Erasing those fields, two runs over the same lines agree exactly. -/

/-- Erase the freshly generated step identifiers from an event. -/
def eraseIds : Event → Event
  | Event.milestone m _ line => Event.milestone m "" line
  | Event.update_summary _ t => Event.update_summary none t
  | e => e

theorem parse_line_erase (g1 g2 : Nat → String) (k1 k2 : Nat) (line cm : String)
    (ic : Bool) (cc : Nat) (s1 m1 s2 m2 : Option String) :
    (parse_line g1 ⟨cm, ic, cc, s1, m1⟩ k1 line).2.map eraseIds =
      (parse_line g2 ⟨cm, ic, cc, s2, m2⟩ k2 line).2.map eraseIds ∧
    (parse_line g1 ⟨cm, ic, cc, s1, m1⟩ k1 line).1.1.current_milestone =
      (parse_line g2 ⟨cm, ic, cc, s2, m2⟩ k2 line).1.1.current_milestone ∧
    (parse_line g1 ⟨cm, ic, cc, s1, m1⟩ k1 line).1.1.in_compile_step =
      (parse_line g2 ⟨cm, ic, cc, s2, m2⟩ k2 line).1.1.in_compile_step ∧
    (parse_line g1 ⟨cm, ic, cc, s1, m1⟩ k1 line).1.1.compile_count =
      (parse_line g2 ⟨cm, ic, cc, s2, m2⟩ k2 line).1.1.compile_count := by
  unfold parse_line
  rcases hpt : parse_log_line_type line with m | ⟨nm, bar, pct⟩ | _ | _ <;>
    simp only [close_compile_step, start_milestone] <;>
    first
    | (split_ifs <;> simp [eraseIds])
    | simp [eraseIds]

theorem runLines_erase (lines : List String) :
    ∀ (g1 g2 : Nat → String) (k1 k2 : Nat) (p q : LogParser),
      p.current_milestone = q.current_milestone →
      p.in_compile_step = q.in_compile_step →
      p.compile_count = q.compile_count →
      (runLines g1 p k1 lines).2.map eraseIds = (runLines g2 q k2 lines).2.map eraseIds ∧
      (runLines g1 p k1 lines).1.1.current_milestone =
        (runLines g2 q k2 lines).1.1.current_milestone ∧
      (runLines g1 p k1 lines).1.1.in_compile_step =
        (runLines g2 q k2 lines).1.1.in_compile_step ∧
      (runLines g1 p k1 lines).1.1.compile_count =
        (runLines g2 q k2 lines).1.1.compile_count := by
  induction lines with
  | nil =>
    intro g1 g2 k1 k2 p q h1 h2 h3
    exact ⟨rfl, h1, h2, h3⟩
  | cons line rest ih =>
    intro g1 g2 k1 k2 p q h1 h2 h3
    cases p with
    | mk cm1 ic1 cc1 si1 mi1 =>
      cases q with
      | mk cm2 ic2 cc2 si2 mi2 =>
        dsimp only at h1 h2 h3
        subst h1; subst h2; subst h3
        have hstep := parse_line_erase g1 g2 k1 k2 line cm1 ic1 cc1 si1 mi1 si2 mi2
        obtain ⟨hev, hcm, hic, hcc⟩ := hstep
        have hrest := ih g1 g2
          (parse_line g1 ⟨cm1, ic1, cc1, si1, mi1⟩ k1 line).1.2
          (parse_line g2 ⟨cm1, ic1, cc1, si2, mi2⟩ k2 line).1.2
          (parse_line g1 ⟨cm1, ic1, cc1, si1, mi1⟩ k1 line).1.1
          (parse_line g2 ⟨cm1, ic1, cc1, si2, mi2⟩ k2 line).1.1
          hcm hic hcc
        obtain ⟨hev2, hcm2, hic2, hcc2⟩ := hrest
        refine ⟨?_, ?_, ?_, ?_⟩ <;>
          simp only [runLines] <;>
          [skip; exact hcm2; exact hic2; exact hcc2]
        simp only [List.map_append, hev, hev2]

theorem close_erase (cm : String) (ic : Bool) (cc : Nat) (s1 m1 s2 m2 : Option String)
    (b : Bool) :
    (close_compile_step ⟨cm, ic, cc, s1, m1⟩ b).2.map eraseIds =
      (close_compile_step ⟨cm, ic, cc, s2, m2⟩ b).2.map eraseIds := by
  by_cases hic : ic <;> simp [close_compile_step, hic, eraseIds]

/-! ## Job-record effects of a trace -/

/-- Whether an effect writes a job-record field. -/
def touchesRecord (a : Act) : Bool :=
  match a with
  | Act.status _ => true
  | Act.set_error _ => true
  | Act.set_binary _ => true
  | _ => false

theorem foldl_applyAct_id {acts : List Act} (h : ∀ a ∈ acts, touchesRecord a = false) :
    ∀ r : JobRecord, acts.foldl applyAct r = r := by
  induction acts with
  | nil => intro r; rfl
  | cons a t ih =>
    intro r
    have ha := h a (List.mem_cons_self a t)
    have hstep : applyAct r a = r := by
      cases a <;> first | rfl | simp [touchesRecord] at ha
    rw [List.foldl_cons, hstep]
    exact ih (fun b hb => h b (List.mem_cons_of_mem a hb)) r

theorem notouch_headerActs (env : RunnerEnv) :
    ∀ a ∈ headerActs env, touchesRecord a = false := by
  intro a ha
  have hall : (headerActs env).all (fun a => !touchesRecord a) = true := by
    unfold headerActs
    by_cases hp : truthyOpt env.api_password = true <;> simp [hp, touchesRecord]
  simpa using List.all_eq_true.1 hall a ha

theorem notouch_map_broadcast (evs : List Event) :
    ∀ a ∈ evs.map Act.broadcast, touchesRecord a = false := by
  intro a ha
  rcases List.mem_map.1 ha with ⟨e, _, rfl⟩
  rfl

theorem notouch_procLoop (gen : Nat → String) :
    ∀ (lines : List String) (p : LogParser) (k : Nat) (ll : List String),
      ∀ a ∈ (procLoop gen p k ll lines).2.2, touchesRecord a = false := by
  intro lines
  induction lines with
  | nil => intro p k ll a ha; simp [procLoop] at ha
  | cons line rest ih =>
    intro p k ll a ha
    unfold procLoop at ha
    by_cases hempty : (pyStrip line).isEmpty = true
    · simp [hempty] at ha
      rcases ha with rfl | ha
      · rfl
      · exact ih _ _ _ a ha
    · simp [hempty] at ha
      rcases ha with rfl | ⟨e, he, rfl⟩ | ha
      · rfl
      · rfl
      · exact ih _ _ _ a ha

theorem notouch_loopResult (env : RunnerEnv) :
    ∀ a ∈ (loopResult env).2.2, touchesRecord a = false := by
  unfold loopResult
  exact notouch_procLoop env.gen env.processLines _ _ _

theorem notouch_trailerActs (env : RunnerEnv) :
    ∀ a ∈ trailerActs env, touchesRecord a = false := by
  intro a ha
  simp [trailerActs] at ha
  rcases ha with rfl | rfl <;> rfl

theorem notouch_finallyActs : ∀ a ∈ finallyActs, touchesRecord a = false := by decide

/-- Without a crash, only the status-determination block touches the record:
the record after a run is the record `⟨"running", none, none⟩` folded through
`tailActs`. -/
theorem finalRecord_no_crash (env : RunnerEnv) (hcrash : env.crashAt = none) :
    finalRecord env = (tailActs env).foldl applyAct ⟨"running", none, none⟩ := by
  unfold finalRecord runnerActs midActs
  rw [hcrash]
  unfold bodyActs
  simp only [List.foldl_cons, List.foldl_append]
  have h0 : applyAct initRecord (Act.status "running") = ⟨"running", none, none⟩ := rfl
  rw [h0,
    foldl_applyAct_id (notouch_headerActs env),
    foldl_applyAct_id (notouch_map_broadcast _),
    foldl_applyAct_id (notouch_loopResult env),
    foldl_applyAct_id (notouch_trailerActs env),
    foldl_applyAct_id (notouch_map_broadcast _),
    foldl_applyAct_id notouch_finallyActs]

theorem finalize_erase (p q : LogParser) (h1 : p.current_milestone = q.current_milestone)
    (h2 : p.in_compile_step = q.in_compile_step) (h3 : p.compile_count = q.compile_count) :
    (finalize p).2.map eraseIds = (finalize q).2.map eraseIds := by
  cases p with
  | mk cm1 ic1 cc1 si1 mi1 =>
    cases q with
    | mk cm2 ic2 cc2 si2 mi2 =>
      dsimp only at h1 h2 h3
      subst h1; subst h2; subst h3
      exact close_erase cm1 ic1 cc1 si1 mi1 si2 mi2 false

/-! ## Claim theorems -/

/-- A concrete runner execution used to compare live classification with
replay of its own persisted transcript: a compile job whose process exits 1
with no output, no crash. -/
def envC1 : RunnerEnv :=
  { job_id := "j1", project_dir := "/p", yaml_filename := "d.yaml", device_name := "dev",
    job_type := "compile", target_device := none, api_password := none,
    appVersion := "v1", pioCacheDir := "/c", binariesDir := "/b",
    endISO := "E", durationStr := "0.10",
    processLines := [], returncode := 1,
    fsIsDir := false, fsWalk := [], fsExistsBin := false,
    crashAt := none, crashMsg := "", crashLogOk := true, crashId := "c",
    gen := fun _ => "u" }

/-- C1, counterexample.  (i) Classification is not a function of the line
sequence and prior classifier state alone: the same line fed to two fresh
`LogParser`s yields different event bytes when the `uuid4` draws differ (the
`'id'` field embeds the draw).  (ii) Even with an identical draw supply,
replaying the persisted transcript of a concrete job through a fresh
classifier does not reproduce the live event sequence: the live run
classifies synthetic lines (`"Validating Config"`, `"[FAILED] Error: ..."`)
that are never written to the transcript, and replay feeds trailer lines
(`"Return Code: 1"`, `"Duration: ..."`, `"Status: FAILED"`) that
`replay_log_events`'s housekeeping filter does not skip; the sequences differ
even after erasing all generated identifiers. -/
theorem C1_replay_not_byte_identical :
    (parse_line (fun _ => "a") LogParser.init 0 "Validating Config").2 ≠
      (parse_line (fun _ => "b") LogParser.init 0 "Validating Config").2 ∧
    liveBroadcasts envC1 ≠ replayEvents envC1.gen (ReplayEnv.ok (transcriptLines envC1)) ∧
    (liveBroadcasts envC1).map eraseIds ≠
      (replayEvents envC1.gen (ReplayEnv.ok (transcriptLines envC1))).map eraseIds := by
  decide

/-- C1, amended: classification depends only on the line sequence and the
classifier's own prior state *up to the freshly drawn step identifiers*: two
fresh-classifier runs over the same lines (each followed by `finalize()`)
produce identical event sequences once the generated `'id'`/`'target_id'`
fields are erased, whatever identifier supplies and starting draw counters the
two runs use.  Byte-identical equality of a live run with the replay of its
transcript does not hold (see the counterexample). -/
theorem C1_deterministic_modulo_ids (g1 g2 : Nat → String) (k1 k2 : Nat) (lines : List String) :
    ((runLines g1 LogParser.init k1 lines).2 ++
      (finalize (runLines g1 LogParser.init k1 lines).1.1).2).map eraseIds =
    ((runLines g2 LogParser.init k2 lines).2 ++
      (finalize (runLines g2 LogParser.init k2 lines).1.1).2).map eraseIds := by
  obtain ⟨hev, h1, h2, h3⟩ :=
    runLines_erase lines g1 g2 k1 k2 LogParser.init LogParser.init rfl rfl rfl
  rw [List.map_append, List.map_append, hev, finalize_erase _ _ h1 h2 h3]

/-- C2: in every reachable state of the dispatcher/runner system, the number
of jobs whose status field equals `running` is at most the configured
`MAX_CONCURRENT_JOBS`, for any pattern of submissions (the `submit` transition
is always enabled, so bursts exceeding capacity are included). -/
theorem C2_admission_bound (maxJobs : Nat) (s : SysState) (h : Reach maxJobs s) :
    runningCount s ≤ maxJobs := by
  obtain ⟨hsum, hrun⟩ := sysInv_reach h
  have h1 : s.jobs.countP isRunningJob ≤ s.jobs.countP holdsSlot := by
    apply countP_le_of_imp
    intro j hj hr
    have hst : j.st = JStatus.runningS := by simpa [isRunningJob] using hr
    simp [holdsSlot, hrun j hj hst]
  calc runningCount s = s.jobs.countP isRunningJob := rfl
    _ ≤ s.jobs.countP holdsSlot := h1
    _ ≤ maxJobs := by omega

/-- C2, witness: with capacity 2, submit three jobs and admit two of them —
the reachable state has exactly 2 running jobs, within the bound. -/
theorem C2_admission_bound_witness :
    runningCount ⟨0, [⟨true, Phase.runningP, JStatus.runningS⟩,
                      ⟨true, Phase.runningP, JStatus.runningS⟩,
                      ⟨true, Phase.queued, JStatus.pending⟩]⟩ ≤ 2 := by
  have r0 : Reach 2 (initState 2) := Reach.boot
  have r1 := Reach.next r0 (SysStep.submit _ true)
  have r2 := Reach.next r1 (SysStep.submit _ true)
  have r3 := Reach.next r2 (SysStep.submit _ true)
  have r4 := Reach.next r3 (SysStep.acquire _ 0 (by decide) (by decide) (by decide))
  have r5 := Reach.next r4 (SysStep.begin _ 0 (by decide) (by decide) (by decide))
  have r6 := Reach.next r5 (SysStep.acquire _ 1 (by decide) (by decide) (by decide))
  have r7 := Reach.next r6 (SysStep.begin _ 1 (by decide) (by decide) (by decide))
  exact C2_admission_bound 2 _ r7

/-- C3: every runner execution — any subprocess behaviour, any crash point,
crash-handler transcript append failing or not — releases the capacity slot
exactly once, as the very last effect of its unconditional cleanup; and the
dispatcher's missing-record path releases the freshly acquired slot exactly
once.  No execution path leaks or double-releases capacity. -/
theorem C3_capacity_released_exactly_once (env : RunnerEnv) :
    countReleases (runnerActs env) = 1 ∧
    (runnerActs env).getLast? = some Act.release ∧
    countReleases managerDiscardActs = 1 := by
  refine ⟨?_, ?_, rfl⟩
  · have h0 : countReleases (midActs env) = 0 :=
      countP_eq_zero_of (fun a ha => isRelease_false_of_benign (benign_midActs env a ha))
    have : countReleases (runnerActs env) =
        countReleases (midActs env) + countReleases finallyActs := by
      simp [runnerActs, countReleases, List.countP_cons, List.countP_append, isRelease]
    rw [this, h0]
    rfl
  · have : runnerActs env =
        (Act.status "running" :: (midActs env ++ [Act.broadcast Event.close, Act.unregister])) ++
          [Act.release] := by
      simp [runnerActs, finallyActs]
    rw [this, getLast?_append_one]

/-- C5: the event sequence published for a job by a live runner execution
contains exactly one `CLOSE`, as its final event, on every exit path
(including any crash point); and every replay stream — complete, file
missing, or interrupted by an exception — likewise ends in exactly one
`CLOSE` with no events after it. -/
theorem C5_close_terminates_every_stream (env : RunnerEnv) (gen : Nat → String)
    (renv : ReplayEnv) :
    (liveBroadcasts env).countP isCloseE = 1 ∧
    (liveBroadcasts env).getLast? = some Event.close ∧
    (replayEvents gen renv).countP isCloseE = 1 ∧
    (replayEvents gen renv).getLast? = some Event.close := by
  have hmid : Event.close ∉ broadcastsOf (midActs env) :=
    close_not_broadcast_of_benign (benign_midActs env)
  have hmid0 : (broadcastsOf (midActs env)).countP isCloseE = 0 :=
    countP_eq_zero_of (fun e he => isCloseE_false_of_ne (fun hc => hmid (hc ▸ he)))
  refine ⟨?_, ?_, ?_, ?_⟩
  · rw [liveBroadcasts_eq, List.countP_append, hmid0]
    rfl
  · rw [liveBroadcasts_eq, getLast?_append_one]
  · cases renv with
    | ok lines =>
      have hl : (replayLoop gen LogParser.init 0 lines).2.countP isCloseE = 0 :=
        countP_eq_zero_of (fun e he => isCloseE_false_of_ne
          (fun hc => replayLoop_no_close gen lines LogParser.init 0 (hc ▸ he)))
      have hf : (finalize (replayLoop gen LogParser.init 0 lines).1.1).2.countP isCloseE = 0 :=
        countP_eq_zero_of (fun e he => isCloseE_false_of_ne
          (fun hc => finalize_no_close _ (hc ▸ he)))
      show ((replayLoop gen LogParser.init 0 lines).2 ++
        (finalize (replayLoop gen LogParser.init 0 lines).1.1).2 ++
        [Event.close]).countP isCloseE = 1
      rw [List.countP_append, List.countP_append, hl, hf]
      rfl
    | notFound =>
      show ([Event.milestone "Error: Log file not found" "err" none,
        Event.close]).countP isCloseE = 1
      rfl
    | errAt consumed msg =>
      have hl : (replayLoop gen LogParser.init 0 consumed).2.countP isCloseE = 0 :=
        countP_eq_zero_of (fun e he => isCloseE_false_of_ne
          (fun hc => replayLoop_no_close gen consumed LogParser.init 0 (hc ▸ he)))
      show ((replayLoop gen LogParser.init 0 consumed).2 ++
        [Event.milestone ("Error: " ++ msg) "err" none, Event.close]).countP isCloseE = 1
      rw [List.countP_append, hl]
      rfl
  · cases renv with
    | ok lines =>
      show ((replayLoop gen LogParser.init 0 lines).2 ++
        (finalize (replayLoop gen LogParser.init 0 lines).1.1).2 ++
        [Event.close]).getLast? = some Event.close
      rw [getLast?_append_one]
    | notFound =>
      show ([Event.milestone "Error: Log file not found" "err" none,
        Event.close]).getLast? = some Event.close
      rfl
    | errAt consumed msg =>
      show ((replayLoop gen LogParser.init 0 consumed).2 ++
        [Event.milestone ("Error: " ++ msg) "err" none, Event.close]).getLast? = some Event.close
      rw [show [Event.milestone ("Error: " ++ msg) "err" none, Event.close] =
        [Event.milestone ("Error: " ++ msg) "err" none] ++ [Event.close] from rfl,
        ← List.append_assoc, getLast?_append_one]

/-- C10: a line matching no classification rule produces exactly the one
plain `{'event': 'log', 'line': line}` event and leaves every classifier
state field (and the draw counter) unchanged. -/
theorem C10_plain_line_frame (gen : Nat → String) (p : LogParser) (k : Nat) (line : String)
    (h : parse_log_line_type line = LineType.logT) :
    parse_line gen p k line = ((p, k), [Event.log line]) := by
  unfold parse_line
  rw [h]

/-- C10, witness: `"hello world"` matches no rule; parsing it from the initial
state returns exactly one plain log event and the unchanged state. -/
theorem C10_plain_line_frame_witness :
    parse_log_line_type "hello world" = LineType.logT ∧
    parse_line (fun _ => "u") LogParser.init 0 "hello world" =
      ((LogParser.init, 0), [Event.log "hello world"]) :=
  ⟨by decide, C10_plain_line_frame (fun _ => "u") LogParser.init 0 "hello world" (by decide)⟩

/-- A compile job that succeeds (exit 0, artifact found) but whose runner then
crashes before leaving the `try` block — e.g. the transcript file's close at
the `with open(...)` exit raising `OSError` on a full disk.  `crashAt` beyond
the body length models an exception after the last body effect. -/
def envC4 : RunnerEnv :=
  { job_id := "j4", project_dir := "/p", yaml_filename := "d.yaml", device_name := "dev",
    job_type := "compile", target_device := none, api_password := none,
    appVersion := "v1", pioCacheDir := "/c", binariesDir := "/b",
    endISO := "E", durationStr := "0.10",
    processLines := [], returncode := 0,
    fsIsDir := true, fsWalk := [("/p/.esphome/build/dev", ["firmware.bin"])],
    fsExistsBin := true,
    crashAt := some 1000, crashMsg := "boom", crashLogOk := true, crashId := "c",
    gen := fun _ => "u" }

/-- C4: the status history of `envC4` is `pending → running → success →
failed` — the crash handler (jobs.py line 186) overwrites an already-terminal
`success` with `failed`, violating the claimed monotonicity. -/
theorem C4_crash_overwrites_terminal_status :
    statusValues envC4 = ["pending", "running", "success", "failed"] := by
  decide

/-- An upload job whose process exits 0, whose trailing window contains no
success marker but does contain the authentication-failure marker. -/
def envC6 : RunnerEnv :=
  { job_id := "j6", project_dir := "/p", yaml_filename := "d.yaml", device_name := "dev",
    job_type := "upload", target_device := some "10.0.0.5", api_password := none,
    appVersion := "v1", pioCacheDir := "/c", binariesDir := "/b",
    endISO := "E", durationStr := "0.10",
    processLines := ["ERROR Authentication invalid"], returncode := 0,
    fsIsDir := false, fsWalk := [], fsExistsBin := false,
    crashAt := none, crashMsg := "", crashLogOk := true, crashId := "c",
    gen := fun _ => "u" }

/-- C6, counterexample: `envC6` is an upload job with exit code 0 and no
success marker in the trailing window, yet its `errorMessage` is the
authentication-specific message, not the generic process-failure message the
claim asserts for every such job. -/
theorem C6_counterexample :
    resolvedType envC6 = "upload" ∧ envC6.returncode = 0 ∧
    is_upload_success envC6 = false ∧
    (finalRecord envC6).status = "failed" ∧
    (finalRecord envC6).error = some "Upload failed: Authentication Invalid." ∧
    (finalRecord envC6).error ≠ some "Process failed. Check log for details." := by
  decide

/-- C6, amended: for every upload job whose process exits 0 without a success
marker in the trailing window (and whose runner does not crash), the terminal
status is `failed` — a pure zero exit code is never sufficient — and the
`errorMessage` is the generic process-failure message *unless* the trailing
window contains the authentication-failure marker, in which case it is the
authentication-specific message. -/
theorem C6_upload_zero_exit_fails (env : RunnerEnv) (hjt : resolvedType env = "upload")
    (hrc : env.returncode = 0) (hmark : is_upload_success env = false)
    (hcrash : env.crashAt = none) :
    (finalRecord env).status = "failed" ∧
    (finalRecord env).error =
      some (if is_auth_fail env then "Upload failed: Authentication Invalid."
            else "Process failed. Check log for details.") := by
  rw [finalRecord_no_crash env hcrash]
  unfold tailActs
  rw [if_neg]
  · rw [List.foldl_append, List.foldl_cons, List.foldl_cons, List.foldl_cons,
      List.foldl_nil, foldl_applyAct_id (notouch_map_broadcast _)]
    exact ⟨rfl, rfl⟩
  · rintro ⟨_, hor⟩
    rcases hor with hsucc | hcomp
    · rw [hmark] at hsucc; cases hsucc
    · rw [hjt] at hcomp
      exact absurd hcomp (by decide)

/-- C6, witness for the amended claim, instantiated at `envC6`. -/
theorem C6_upload_zero_exit_fails_witness :
    (finalRecord envC6).status = "failed" ∧
    (finalRecord envC6).error =
      some (if is_auth_fail envC6 then "Upload failed: Authentication Invalid."
            else "Process failed. Check log for details.") :=
  C6_upload_zero_exit_fails envC6 (by decide) rfl (by decide) rfl

/-- C7: a compile job with exit code 0 (no crash): if `_find_firmware_bin`
locates the artifact under the build directory and the path exists, the job
ends `success` with `binary_file = "{jobId}-{deviceName}-firmware.bin"` and a
null error; if the artifact is not located (no hit, or the existence re-check
fails), the job is downgraded to `failed` with the descriptive
`Source binary not found in {project_dir}` error despite the zero exit. -/
theorem C7_compile_artifact_determines_status (env : RunnerEnv)
    (hjt : resolvedType env = "compile") (hrc : env.returncode = 0)
    (hcrash : env.crashAt = none) :
    (∀ srcPath, find_firmware_bin env = some srcPath → env.fsExistsBin = true →
      (finalRecord env).status = "success" ∧
      (finalRecord env).binary_file = some (finalBinaryName env) ∧
      (finalRecord env).error = none) ∧
    (find_firmware_bin env = none →
      (finalRecord env).status = "failed" ∧
      (finalRecord env).error = some ("Source binary not found in " ++ env.project_dir)) ∧
    (env.fsExistsBin = false →
      (finalRecord env).status = "failed" ∧
      (finalRecord env).error = some ("Source binary not found in " ++ env.project_dir)) := by
  rw [finalRecord_no_crash env hcrash]
  unfold tailActs
  rw [if_pos ⟨hrc, Or.inr hjt⟩]
  have hmiss : (artifactMissingActs env).foldl applyAct
      (⟨"running", none, none⟩ : JobRecord) =
      ⟨"failed", some ("Source binary not found in " ++ env.project_dir), none⟩ := by
    unfold artifactMissingActs
    rw [List.foldl_append, List.foldl_cons, List.foldl_cons, List.foldl_cons,
      List.foldl_nil, foldl_applyAct_id (notouch_map_broadcast _)]
    rfl
  refine ⟨?_, ?_, ?_⟩
  · intro srcPath hfind hex
    rw [List.foldl_cons, hfind]
    simp only
    rw [if_pos hex, List.foldl_append, if_pos hjt,
      foldl_applyAct_id (notouch_map_broadcast _)]
    exact ⟨rfl, rfl, rfl⟩
  · intro hfind
    rw [List.foldl_cons, hfind]
    simp only
    rw [show applyAct (⟨"running", none, none⟩ : JobRecord)
        (Act.log_write "Status: SUCCESS\n") = ⟨"running", none, none⟩ from rfl, hmiss]
    exact ⟨rfl, rfl⟩
  · intro hex
    rw [List.foldl_cons,
      show applyAct (⟨"running", none, none⟩ : JobRecord)
        (Act.log_write "Status: SUCCESS\n") = ⟨"running", none, none⟩ from rfl]
    cases hfind : find_firmware_bin env with
    | none =>
      simp only
      rw [hmiss]
      exact ⟨rfl, rfl⟩
    | some srcPath =>
      simp only
      rw [if_neg (by rw [hex]; intro hcon; cases hcon), hmiss]
      exact ⟨rfl, rfl⟩

/-- A concrete successful compile run: exit 0, artifact present. -/
def envC7 : RunnerEnv :=
  { job_id := "j7", project_dir := "/p", yaml_filename := "d.yaml", device_name := "dev",
    job_type := "compile", target_device := none, api_password := none,
    appVersion := "v1", pioCacheDir := "/c", binariesDir := "/b",
    endISO := "E", durationStr := "0.10",
    processLines := [], returncode := 0,
    fsIsDir := true, fsWalk := [("/p/.esphome/build/dev", ["firmware.bin"])],
    fsExistsBin := true,
    crashAt := none, crashMsg := "", crashLogOk := true, crashId := "c",
    gen := fun _ => "u" }

/-- C7, witness: the success half instantiated at `envC7`. -/
theorem C7_compile_artifact_determines_status_witness :
    (finalRecord envC7).status = "success" ∧
    (finalRecord envC7).binary_file = some (finalBinaryName envC7) ∧
    (finalRecord envC7).error = none :=
  (C7_compile_artifact_determines_status envC7 (by decide) rfl rfl).1
    "/p/.esphome/build/dev/firmware.bin" (by decide) rfl

/-- C8: after one aggregated compile line, `finalize()` emits exactly one
`UpdateSummary` — but its label is `"Compiling C/C++ Sources & Archiving
(1 files)"` with no interrupted marker, because `finalize` (services.py line
143) calls `_close_compile_step()` without `interrupted=True`, leaving the
`" - Interrupted"` branch dead; a second `finalize()` emits nothing. -/
theorem C8_finalize_closes_once_without_interrupted_label :
    (finalize (parse_line (fun _ => "u") LogParser.init 0
        "Compiling .pioenvs/dev/src/a.o").1.1).2 =
      [Event.update_summary (some "step-u") "Compiling C/C++ Sources & Archiving (1 files)"] ∧
    strContains "Compiling C/C++ Sources & Archiving (1 files)" "Interrupted" = false ∧
    (finalize (finalize (parse_line (fun _ => "u") LogParser.init 0
        "Compiling .pioenvs/dev/src/a.o").1.1).1).2 = [] ∧
    (finalize LogParser.init).2 = [] := by
  decide

/-- C9, counterexample: the buffer a live subscription creates is
`queue.Queue()` with `maxsize` 0 — i.e. *unbounded* — so `put_nowait` on it
never raises `Full` and no event is ever dropped: a buffer already holding
100 events still accepts the next one. -/
theorem C9_subscriber_buffer_unbounded :
    newListenerQueue.maxsize = 0 ∧
    put_nowait ⟨0, List.replicate 100 (Event.log "x")⟩ (Event.log "y") =
      some ⟨0, List.replicate 100 (Event.log "x") ++ [Event.log "y"]⟩ := by
  decide

/-- C9, amended: publishing never blocks or raises — `_broadcast_log` performs
one non-blocking `put_nowait` per subscriber and swallows `queue.Full`, so the
`i`-th resulting queue depends only on the `i`-th input queue (a drop, were a
bounded queue ever full, would affect that subscriber alone); but the buffers
actually created for subscribers are unbounded (`maxsize` 0), so in this code
no event is ever dropped. -/
theorem C9_broadcast_nonblocking (qs : List PyQueue) (e : Event) (i : Nat) :
    (broadcast_log qs e).length = qs.length ∧
    (broadcast_log qs e).get? i =
      (qs.get? i).map (fun q => match put_nowait q e with | some q2 => q2 | none => q) ∧
    (∀ items : List Event, put_nowait ⟨0, items⟩ e = some ⟨0, items ++ [e]⟩) := by
  refine ⟨?_, ?_, ?_⟩
  · simp [broadcast_log]
  · simp [broadcast_log, List.get?_map]
  · intro items
    simp [put_nowait]
